import Mathlib

/-!
# Verification of the PulseSomaAutomation run-supervision core

A shallow embedding of the run-supervision backend
(`backend/job_runner.py`, `backend/main.py`, `backend/email_helper.py`,
with `backend/impulse_runner.py` as a near-identical variant), together
with theorems settling the specification claims about it.

Modelling conventions:
* Python strings are Lean `String`s; every Python string primitive used by
  the code (`strip`, `rstrip`, `split`, `startswith`, lexicographic `<`,
  `sorted`) is re-implemented over the underlying `List Char` so that all
  definitions evaluate by kernel reduction.
* OS signalling is modelled by a trace of delivered `SigAction`s:
  `os.kill(pid, sig)` appends `SigAction.killPid pid sig`, and
  `os.killpg(pgid, sig)` appends `SigAction.killGroup pgid sig` when the
  target group is still alive (a `ProcessLookupError` on a dead group is
  swallowed by the code, so nothing is delivered and nothing is raised).
  The driver is spawned with `start_new_session=True`, hence its process
  group id equals its pid.
* Socket.IO `emit` calls append to a per-run `events` trace; e-mail
  alerts (`send_alert_async`, which never raises) append to a
  `notifications` trace; `time.sleep(n)` appends to a `sleeps` trace.
* Python exceptions that cross an embedded function's boundary are an
  `Except.error`; functions that cannot raise return plain values.
-/

namespace PulseSoma

/-! ## Python string primitives -/

/-- The characters Python `str.split()` and `str.strip()` treat as
whitespace. -/
def isPySpace (c : Char) : Bool :=
  c = ' ' || c = '\t' || c = '\n' || c = '\r' || c = '\x0b' || c = '\x0c'

/-- Python `s.strip(chars)`: drop characters belonging to `cs` from both
ends of the string. -/
def pyStrip (cs : List Char) (s : String) : String :=
  String.mk (((s.data.dropWhile (fun c => cs.contains c)).reverse.dropWhile
      (fun c => cs.contains c)).reverse)

/-- Python `s.rstrip(chars)`: drop characters belonging to `cs` from the
right end of the string. -/
def pyRstrip (cs : List Char) (s : String) : String :=
  String.mk ((s.data.reverse.dropWhile (fun c => cs.contains c)).reverse)

/-- Python `s.startswith(pre)`. -/
def pyStartsWith (pre s : String) : Bool :=
  pre.data.isPrefixOf s.data

/-- Python `s.endswith(suf)`. -/
def pyEndsWith (suf s : String) : Bool :=
  suf.data.isSuffixOf s.data

/-- Helper for `pySplitWs`: accumulate the current token (reversed in
`acc`) while scanning the character list. -/
def wsTokensAux : List Char → List Char → List (List Char)
  | [], acc => if acc.isEmpty then [] else [acc.reverse]
  | c :: rest, acc =>
    if isPySpace c then
      if acc.isEmpty then wsTokensAux rest [] else acc.reverse :: wsTokensAux rest []
    else wsTokensAux rest (c :: acc)

/-- Python `s.split()` (no argument): split on runs of whitespace,
discarding empty tokens. -/
def pySplitWs (s : String) : List String :=
  (wsTokensAux s.data []).map String.mk

/-- Helper for `pySplitOn`: split a character list at every occurrence of
`sep`, keeping empty fields (Python `s.split(sep)` semantics). -/
def splitOnCharAux (sep : Char) : List Char → List Char → List (List Char)
  | [], acc => [acc.reverse]
  | c :: rest, acc =>
    if c = sep then acc.reverse :: splitOnCharAux sep rest []
    else splitOnCharAux sep rest (c :: acc)

/-- Python `s.split(sep)` for a one-character separator. -/
def pySplitOn (sep : Char) (s : String) : List String :=
  (splitOnCharAux sep s.data []).map String.mk

/-- Python `s.strip()` (no argument): strip whitespace from both ends. -/
def pyStripWs (s : String) : String :=
  String.mk (((s.data.dropWhile isPySpace).reverse.dropWhile isPySpace).reverse)

/-- Lexicographic strict comparison of character lists by code point,
as Python compares strings with `<`. -/
def pyLtChars : List Char → List Char → Bool
  | [], [] => false
  | [], _ :: _ => true
  | _ :: _, [] => false
  | a :: as, b :: bs => if a = b then pyLtChars as bs else decide (a < b)

/-- Python string `<`: lexicographic by code point. -/
def pyStrLt (s t : String) : Bool := pyLtChars s.data t.data

theorem pyLtChars_irrefl (l : List Char) : pyLtChars l l = false := by
  induction l with
  | nil => rfl
  | cons c cs ih => simp [pyLtChars, ih]

theorem pyLtChars_asymm :
    ∀ a b : List Char, pyLtChars a b = true → pyLtChars b a = false := by
  intro a
  induction a with
  | nil =>
    intro b h
    cases b with
    | nil => simp [pyLtChars] at h
    | cons y ys => rfl
  | cons x xs ih =>
    intro b h
    cases b with
    | nil => simp [pyLtChars] at h
    | cons y ys =>
      by_cases hxy : x = y
      · subst hxy
        simp [pyLtChars] at h ⊢
        exact ih ys h
      · have hyx : y ≠ x := fun hc => hxy hc.symm
        simp [pyLtChars, hxy, hyx] at h ⊢
        exact le_of_lt h

theorem pyLtChars_trans :
    ∀ a b c : List Char, pyLtChars a b = true → pyLtChars b c = true →
      pyLtChars a c = true := by
  intro a
  induction a with
  | nil =>
    intro b c hab hbc
    cases b with
    | nil => simp [pyLtChars] at hab
    | cons y ys =>
      cases c with
      | nil => simp [pyLtChars] at hbc
      | cons z zs => rfl
  | cons x xs ih =>
    intro b c hab hbc
    cases b with
    | nil => simp [pyLtChars] at hab
    | cons y ys =>
      cases c with
      | nil => simp [pyLtChars] at hbc
      | cons z zs =>
        by_cases hxy : x = y
        · subst hxy
          simp [pyLtChars] at hab
          by_cases hyz : x = z
          · subst hyz
            simp [pyLtChars] at hbc ⊢
            exact ih ys zs hab hbc
          · simp [pyLtChars, hyz] at hbc ⊢
            exact hbc
        · simp [pyLtChars, hxy] at hab
          by_cases hyz : y = z
          · subst hyz
            simp [pyLtChars, hxy]
            exact hab
          · simp [pyLtChars, hyz] at hbc
            by_cases hxz : x = z
            · subst hxz
              exact absurd (lt_trans hab hbc) (lt_irrefl x)
            · simp [pyLtChars, hxz]
              exact lt_trans hab hbc

theorem pyLtChars_append (xs ys : List Char) :
    ∀ a b : List Char, a.length = b.length → pyLtChars a b = true →
      pyLtChars (a ++ xs) (b ++ ys) = true := by
  intro a
  induction a with
  | nil =>
    intro b hlen h
    cases b with
    | nil => simp [pyLtChars] at h
    | cons y bs => simp at hlen
  | cons x as ih =>
    intro b hlen h
    cases b with
    | nil => simp at hlen
    | cons y bs =>
      simp at hlen
      by_cases hxy : x = y
      · subst hxy
        simp [pyLtChars] at h ⊢
        exact ih bs hlen h
      · simp [pyLtChars, hxy] at h ⊢
        exact h

theorem pyLtChars_ne {a b : List Char} (h : pyLtChars a b = true) : a ≠ b := by
  intro hab
  subst hab
  rw [pyLtChars_irrefl] at h
  exact Bool.false_ne_true h

theorem pyStrLt_irrefl (s : String) : pyStrLt s s = false :=
  pyLtChars_irrefl s.data

theorem pyStrLt_asymm {s t : String} (h : pyStrLt s t = true) :
    pyStrLt t s = false :=
  pyLtChars_asymm s.data t.data h

theorem pyStrLt_trans {s t u : String} (h1 : pyStrLt s t = true)
    (h2 : pyStrLt t u = true) : pyStrLt s u = true :=
  pyLtChars_trans s.data t.data u.data h1 h2

theorem string_data_append (s t : String) : (s ++ t).data = s.data ++ t.data := by
  cases s
  cases t
  rfl

/-! ## Python `sorted`

Python's `sorted` is a stable ascending sort.  `insortBy lt x l` inserts
`x` after every element it is not strictly below, so folding it over the
input list from the left is a stable insertion sort: it agrees with
Python `sorted` on both order and tie-breaking. -/

/-- Insert `x` into `l` before the first element `y` with `lt x y`. -/
def insortBy {α : Type} (lt : α → α → Bool) (x : α) : List α → List α
  | [] => [x]
  | y :: ys => if lt x y then x :: y :: ys else y :: insortBy lt x ys

/-- Stable ascending sort by the strict comparison `lt` (Python
`sorted(l, key=...)` with `lt` comparing keys). -/
def pySortBy {α : Type} (lt : α → α → Bool) (l : List α) : List α :=
  l.foldl (fun acc x => insortBy lt x acc) []

theorem mem_insortBy {α : Type} (lt : α → α → Bool) (x a : α) :
    ∀ l : List α, x ∈ insortBy lt a l ↔ x = a ∨ x ∈ l := by
  intro l
  induction l with
  | nil => simp [insortBy]
  | cons y ys ih =>
    by_cases h : lt a y = true
    · simp [insortBy, h]
    · simp only [insortBy, h]
      simp [ih]
      tauto

theorem mem_pySortBy_aux {α : Type} (lt : α → α → Bool) (x : α) :
    ∀ (l acc : List α),
      (x ∈ l.foldl (fun acc y => insortBy lt y acc) acc ↔ x ∈ acc ∨ x ∈ l) := by
  intro l
  induction l with
  | nil => simp
  | cons y ys ih =>
    intro acc
    simp only [List.foldl_cons]
    rw [ih]
    rw [mem_insortBy]
    simp
    tauto

theorem mem_pySortBy {α : Type} (lt : α → α → Bool) (x : α) (l : List α) :
    x ∈ pySortBy lt l ↔ x ∈ l := by
  unfold pySortBy
  rw [mem_pySortBy_aux]
  simp

/-- The ordering invariant maintained by the insertion sort: no element is
strictly below an element that precedes it. -/
def SortedBy {α : Type} (lt : α → α → Bool) (l : List α) : Prop :=
  l.Pairwise (fun a b => lt b a = false)

theorem insortBy_sorted {α : Type} (lt : α → α → Bool)
    (hasymm : ∀ a b, lt a b = true → lt b a = false)
    (htrans : ∀ a b c, lt a b = true → lt b c = true → lt a c = true)
    (a : α) :
    ∀ l : List α, SortedBy lt l → SortedBy lt (insortBy lt a l) := by
  intro l
  induction l with
  | nil =>
    intro _
    simp [insortBy, SortedBy]
  | cons y ys ih =>
    intro hs
    rcases (List.pairwise_cons.mp hs) with ⟨hy, hys⟩
    by_cases h : lt a y = true
    · simp only [insortBy, h, if_true]
      refine List.pairwise_cons.mpr ⟨?_, hs⟩
      intro z hz
      rcases List.mem_cons.mp hz with rfl | hz
      · exact hasymm a z h
      · have hzy := hy z hz
        by_contra hza
        have hza' : lt z a = true := by
          cases hlt : lt z a
          · exact absurd hlt hza
          · rfl
        have := htrans z a y hza' h
        rw [hzy] at this
        exact Bool.false_ne_true this
    · simp only [insortBy, h, if_false]
      refine List.pairwise_cons.mpr ⟨?_, ih hys⟩
      intro z hz
      rcases (mem_insortBy lt z a ys).mp hz with rfl | hz
      · cases hlt : lt z y
        · rfl
        · exact absurd hlt (by simpa using h)
      · exact hy z hz

theorem pySortBy_sorted {α : Type} (lt : α → α → Bool)
    (hasymm : ∀ a b, lt a b = true → lt b a = false)
    (htrans : ∀ a b c, lt a b = true → lt b c = true → lt a c = true)
    (l : List α) : SortedBy lt (pySortBy lt l) := by
  suffices h : ∀ (xs acc : List α), SortedBy lt acc →
      SortedBy lt (xs.foldl (fun acc y => insortBy lt y acc) acc) by
    exact h l [] (by simp [SortedBy])
  intro xs
  induction xs with
  | nil =>
    intro acc hacc
    simpa using hacc
  | cons x xs ih =>
    intro acc hacc
    simp only [List.foldl_cons]
    exact ih _ (insortBy_sorted lt hasymm htrans x acc hacc)

theorem getLast?_mem' {α : Type} :
    ∀ (l : List α) (m : α), l.getLast? = some m → m ∈ l := by
  intro l
  induction l with
  | nil =>
    intro m h
    simp at h
  | cons x xs ih =>
    intro m h
    cases xs with
    | nil =>
      simp at h
      simp [h]
    | cons y ys =>
      rw [List.getLast?_cons_cons] at h
      exact List.mem_cons_of_mem x (ih m h)

/-- In a list satisfying the sort invariant, the last element is maximal:
no element of the list is strictly above it. -/
theorem sortedBy_getLast_max {α : Type} (lt : α → α → Bool)
    (hirrefl : ∀ a, lt a a = false) :
    ∀ (l : List α) (m : α), SortedBy lt l → l.getLast? = some m →
      ∀ x ∈ l, lt m x = false := by
  intro l
  induction l with
  | nil =>
    intro m _ h
    simp at h
  | cons y ys ih =>
    intro m hs hlast x hx
    rcases (List.pairwise_cons.mp hs) with ⟨hy, hys⟩
    cases ys with
    | nil =>
      simp at hlast
      simp at hx
      rw [hx, ← hlast]
      exact hirrefl _
    | cons z zs =>
      rw [List.getLast?_cons_cons] at hlast
      rcases List.mem_cons.mp hx with rfl | hx
      · exact hy m (getLast?_mem' (z :: zs) m hlast)
      · exact ih m hys hlast x hx

/-! ## Signals, events parade and the Run Record (`RunStatus`)

`backend/job_runner.py` keeps one `RunStatus` object per run in the
module-level dict `runs`.  The record below carries the `RunStatus`
attributes (`tail_tasks` and the never-assigned `pgid` are omitted;
`log_dir` is always `LOGS_DIR/<id>`, so only its on-disk existence is
tracked) plus the run's observable effect traces. -/

/-- POSIX signals used by the supervisor. -/
inductive Sig
  | stop
  | cont
  | term
  | kill
deriving DecidableEq

/-- A delivered signal: `killPid` models `os.kill(pid, sig)` reaching the
single process `pid`; `killGroup` models `os.killpg(pgid, sig)` reaching
every member of the process group `pgid`. -/
inductive SigAction
  | killPid (pid : Nat) (sig : Sig)
  | killGroup (pgid : Nat) (sig : Sig)
deriving DecidableEq

/-- Events published on the Socket.IO bus in a run's room (payload fields
other than the ones below are derivable timestamps). -/
inductive Event
  | logE (file : String) (line : String)
  | stageE (stage : String)
  | pausedE (stage : String)
  | resumedE (stage : Option String)
  | completeE (outcome : String) (rc : Int)
deriving DecidableEq

/-- The Run Record (`RunStatus` in `job_runner.py`) plus this run's
observable effect traces (delivered signals, published events, dispatched
notifications, `time.sleep` calls). -/
structure RunStatus where
  id : String
  cmd : List String
  process : Option Nat
  startTs : String
  endTs : Option String
  returnCode : Option Int
  stage : String
  error : Option String
  paused : Bool
  pendingStage : Option String
  logDirExists : Bool
  events : List Event
  signals : List SigAction
  notifications : List String
  sleeps : List Nat
deriving DecidableEq

/-- `RunStatus.__init__` as mutated by `start_run` up to the spawn: fresh
id, the command vector, `stage = "INIT"`, nothing paused or pending, the
private log directory just created, the spawned driver's pid recorded. -/
def initRunStatus (rid : String) (cmd : List String) (startTs : String)
    (pid : Nat) : RunStatus :=
  { id := rid, cmd := cmd, process := some pid, startTs := startTs,
    endTs := none, returnCode := none, stage := "INIT", error := none,
    paused := false, pendingStage := none, logDirExists := true,
    events := [], signals := [], notifications := [], sleeps := [] }

/-! ## Stage Monitor and pause/resume (`job_runner.py`) -/

/-- `_pause_process`: `if run.process and run.process.pid:
os.kill(run.process.pid, signal.SIGSTOP); run.paused = True`.  Note the
single-pid `os.kill`, not `os.killpg`. -/
def pauseProcess (r : RunStatus) : RunStatus :=
  match r.process with
  | some pid =>
    if pid ≠ 0 then
      { r with signals := r.signals ++ [SigAction.killPid pid Sig.stop],
               paused := true }
    else r
  | none => r

/-- `_resume_process`: `os.kill(run.process.pid, signal.SIGCONT);
run.paused = False` under the same truthiness guard.  `pending_stage` is
not touched. -/
def resumeProcess (r : RunStatus) : RunStatus :=
  match r.process with
  | some pid =>
    if pid ≠ 0 then
      { r with signals := r.signals ++ [SigAction.killPid pid Sig.cont],
               paused := false }
    else r
  | none => r

/-- Subject line of the checkpoint alert e-mail in `_read_driver_stdout`. -/
def alertSubject (stageName : String) : String :=
  "SOMA Pipeline awaiting approval - " ++ stageName

/-- The checkpoint block of `_read_driver_stdout`, executed when the
recognized stage is not CONFIG/COMPLETE: `_pause_process(run)`;
`run.pending_stage = stage_name`; emit `"paused"`; `send_alert_async`. -/
def checkpointStep (r : RunStatus) (stageName : String) : RunStatus :=
  let r1 := pauseProcess r
  let r2 := { r1 with pendingStage := some stageName }
  let r3 := { r2 with events := r2.events ++ [Event.pausedE stageName] }
  { r3 with notifications := r3.notifications ++ [alertSubject stageName] }

/-- The recognized-marker block of `_read_driver_stdout`: update
`run.stage`, emit a `"stage"` event, and unless the stage is CONFIG or
COMPLETE run the checkpoint block. -/
def stageMarkerStep (r : RunStatus) (stageName : String) : RunStatus :=
  let r1 := { r with stage := stageName,
                     events := r.events ++ [Event.stageE stageName] }
  if stageName = "CONFIG" ∨ stageName = "COMPLETE" then r1
  else checkpointStep r1 stageName

/-- One iteration of the `while` loop of `_read_driver_stdout` on a raw
line `raw` (already decoded with `errors="replace"`): rstrip the newline,
recognize `"=== "`-prefixed stage markers by stripping `'='`/`' '` from
both ends and splitting on whitespace (first token is the stage name),
then forward the line as a `"log"` event on the virtual `"driver"` file. -/
def readLineStep (r : RunStatus) (raw : String) : RunStatus :=
  let decoded := pyRstrip ['\n'] raw
  let r1 :=
    if pyStartsWith "=== " decoded then
      match pySplitWs (pyStrip ['=', ' '] decoded) with
      | [] => r
      | stageName :: _ => stageMarkerStep r stageName
    else r
  { r1 with events := r1.events ++ [Event.logE "driver" decoded] }

/-- The body of the Socket.IO `continue_stage` handler in `main.py` once
the run has been found: no-op when not paused, otherwise
`_resume_process(run)` followed by emitting `"resumed"` with
`run.pending_stage` — which is never cleared. -/
def continueStage (r : RunStatus) : RunStatus :=
  if !r.paused then r
  else
    let r1 := resumeProcess r
    { r1 with events := r1.events ++ [Event.resumedE r1.pendingStage] }

/-- `_wait_for_exit` once `run.process.wait()` has returned with exit
status `rc` at time `ts`: record the return code and end timestamp and
emit the single `"complete"` event (tailer cancellation is out of
model). -/
def waitExitStep (r : RunStatus) (rc : Int) (ts : String) : RunStatus :=
  let r1 := { r with returnCode := some rc, endTs := some ts }
  let outcome := if rc = 0 then "success" else "failure"
  { r1 with events := r1.events ++ [Event.completeE outcome rc] }

/-- The signalling block of `_terminate_run`: `os.killpg(pgid, SIGTERM)`
(swallowing `ProcessLookupError`), `time.sleep(grace)`,
`os.killpg(pgid, SIGKILL)` (again swallowed).
`aliveStart`/`aliveAfterGrace` are the OS-level facts of whether the
group is still alive at each `killpg` (a dead group raises
`ProcessLookupError`, so nothing is delivered and the exception is
swallowed).  The group id equals the driver pid because of
`start_new_session=True`. -/
def terminateSignals (grace : Nat) (aliveStart aliveAfterGrace : Bool)
    (pid : Nat) (r : RunStatus) : RunStatus :=
  let ra := if aliveStart then
      { r with signals := r.signals ++ [SigAction.killGroup pid Sig.term] }
    else r
  let rb := { ra with sleeps := ra.sleeps ++ [grace] }
  if aliveAfterGrace then
    { rb with signals := rb.signals ++ [SigAction.killGroup pid Sig.kill] }
  else rb

/-- The trailing `rmtree` block of `_terminate_run`: if the run's log
directory exists, try to remove it, swallowing any error (`rmOk` false
models a failed deletion). -/
def rmtreeLogDir (rmOk : Bool) (r : RunStatus) : RunStatus :=
  if r.logDirExists then
    if rmOk then { r with logDirExists := false } else r
  else r

/-- `_terminate_run` itself: the signalling block guarded by
`run.process and run.process.returncode is None`, then the `rmtree`
block. -/
def terminateRun (grace : Nat) (aliveStart aliveAfterGrace rmOk : Bool)
    (r : RunStatus) : RunStatus :=
  let r1 :=
    match r.process with
    | some pid =>
      if r.returnCode = none then terminateSignals grace aliveStart aliveAfterGrace pid r
      else r
    | none => r
  rmtreeLogDir rmOk r1

/-- `time.sleep(5)` in `job_runner._terminate_run`. -/
def SOMA_TERM_GRACE : Nat := 5

/-- `time.sleep(3)` in `impulse_runner._terminate_run`. -/
def IMPULSE_TERM_GRACE : Nat := 3

/-! ## Per-run action traces

One supervised run is driven by the concurrently scheduled stdout-reader,
exit-waiter and command handlers, all mutating the same `RunStatus` on
one cooperative scheduler.  A run history is a list of atomic `Act`s in
the order the scheduler executed them. -/

/-- An atomic step against one run: a driver stdout line, an operator
resume, the process exit observed by `_wait_for_exit`, or a cancel. -/
inductive Act
  | line (raw : String)
  | resume
  | exitA (rc : Int) (ts : String)
  | cancelA (aliveStart aliveAfterGrace rmOk : Bool)
deriving DecidableEq

/-- Whether an action is the exit-waiter firing. -/
def isExitAct : Act → Bool
  | Act.exitA _ _ => true
  | _ => false

/-- Execute one action. -/
def stepAct (r : RunStatus) : Act → RunStatus
  | Act.line raw => readLineStep r raw
  | Act.resume => continueStage r
  | Act.exitA rc ts => waitExitStep r rc ts
  | Act.cancelA s g k => terminateRun SOMA_TERM_GRACE s g k r

/-- Execute a run history. -/
def runActs (r : RunStatus) (acts : List Act) : RunStatus :=
  acts.foldl stepAct r

/-! ## Run Registry (`runs` dict) and Run Supervisor commands -/

/-- Run ids: `datetime.utcnow().strftime("%Y%m%d-%H%M%S-") +
uuid.uuid4().hex[:6]`.  `timePart` is the 16-character second-resolution
time part, `randPart` the 6 random hex characters. -/
def mkRunId (timePart randPart : String) : String :=
  timePart ++ randPart

/-- The `runs` dict: an insertion-ordered association of run id to Run
Record, as a Python 3.7+ dict iterates. -/
abbrev Registry : Type := List (String × RunStatus)

/-- `runs[rid]` lookup (`rid in runs` + `runs[rid]`). -/
def lookupRun : Registry → String → Option RunStatus
  | [], _ => none
  | p :: rest, rid => if p.1 == rid then some p.2 else lookupRun rest rid

/-- In-place mutation of the record stored under `rid` (Python mutates
the shared `RunStatus` object; here the entry is rewritten). -/
def updateRun (runs : Registry) (rid : String) (f : RunStatus → RunStatus) :
    Registry :=
  runs.map (fun p => if p.1 == rid then (p.1, f p.2) else p)

/-- `runs[run.id] = run`: dict assignment keeps the position of an
existing key and appends a new key. -/
def dictInsert (runs : Registry) (rid : String) (r : RunStatus) : Registry :=
  if (lookupRun runs rid).isSome
  then updateRun runs rid (fun _ => r)
  else runs ++ [(rid, r)]

/-- The summary returned by `get_status`. -/
structure StatusView where
  runId : String
  cmd : List String
  stage : String
  startTs : String
  endTs : Option String
  returnCode : Option Int
deriving DecidableEq

/-- `get_status(run_id)`: `KeyError("run not found")` for an unknown id,
else the record summary. -/
def get_status (runs : Registry) (rid : String) : Except String StatusView :=
  match lookupRun runs rid with
  | none => Except.error "run not found"
  | some r =>
    Except.ok { runId := rid, cmd := r.cmd, stage := r.stage,
                startTs := r.startTs, endTs := r.endTs,
                returnCode := r.returnCode }

/-- `cancel_run(run_id)`: `KeyError("run not found")` for an unknown id,
else `_terminate_run(runs[run_id])`. -/
def cancel_run (runs : Registry) (rid : String)
    (aliveStart aliveAfterGrace rmOk : Bool) : Except String Registry :=
  match lookupRun runs rid with
  | none => Except.error "run not found"
  | some _ =>
    Except.ok (updateRun runs rid
      (terminateRun SOMA_TERM_GRACE aliveStart aliveAfterGrace rmOk))

/-- The Socket.IO `continue_stage` handler of `main.py`: silently returns
(no error, no event) when `run_id` is missing, falsy, or unknown;
otherwise runs `continueStage` against the named run.  There is no raise
path, hence no `Except`. -/
def continue_stage (runs : Registry) (rid? : Option String) : Registry :=
  match rid? with
  | none => runs
  | some rid =>
    if rid = "" then runs
    else
      match lookupRun runs rid with
      | none => runs
      | some _ => updateRun runs rid continueStage

/-- `get_active_run_id()`: the runs with `return_code is None`, sorted by
`start_ts` (Python's stable `sorted`), last one's id; `None` when there is
no such run. -/
def get_active_run_id (runs : Registry) : Option String :=
  let active := (runs.map Prod.snd).filter (fun r => r.returnCode.isNone)
  if active.isEmpty then none
  else ((pySortBy (fun a b => pyStrLt a.startTs b.startTs) active).getLast?).map
    (fun r => r.id)

/-! ## Filesystem model and log-file queries -/

/-- The filesystem fragment the supervisor touches: which directories
exist and which (directory, filename) pairs exist. -/
structure FS where
  dirs : List String
  files : List (String × String)
deriving DecidableEq

/-- `LOGS_DIR = APP_ROOT / "runner" / "logs"`, the shared legacy log
directory, as a path string. -/
def LOGS_DIR : String := "runner/logs"

/-- The private log directory path of a run: `LOGS_DIR / run_id`. -/
def logDirPath (rid : String) : String := LOGS_DIR ++ "/" ++ rid

/-- `log_dir_for(run_id)`: `d = LOGS_DIR / run_id;
d.mkdir(parents=True, exist_ok=True); return d`.  Creating the directory
is a side effect of every call, whatever the id. -/
def log_dir_for (fs : FS) (rid : String) : String × FS :=
  let d := logDirPath rid
  (d, { fs with dirs := if fs.dirs.contains d then fs.dirs else fs.dirs ++ [d] })

/-- `d.glob("*.log")` over the modelled filesystem (filenames only). -/
def globLogs (fs : FS) (d : String) : List String :=
  (fs.files.filter (fun p => p.1 == d && pyEndsWith ".log" p.2)).map Prod.snd

/-- `list_log_files(run_id)`: the set union of `*.log` names in the run's
private directory (created on the spot by `log_dir_for`) and in the
shared `LOGS_DIR`, sorted.  There is no registry check and no raise
path. -/
def list_log_files (fs : FS) (rid : String) : List String × FS :=
  let p := log_dir_for fs rid
  let names := (globLogs p.2 p.1 ++ globLogs p.2 LOGS_DIR).dedup
  (pySortBy pyStrLt names, p.2)

/-- The `GET /tests/{run_id}/logs/{filename}` handler `download_log_soma`:
`log_dir_for(run_id)` (creating the directory) then serve the file from
the private directory, else from `LOGS_DIR`, else 404. -/
def download_log (fs : FS) (rid fname : String) :
    Option (String × String) × FS :=
  let p := log_dir_for fs rid
  if p.2.files.contains (p.1, fname) then (some (p.1, fname), p.2)
  else if p.2.files.contains (LOGS_DIR, fname) then (some (LOGS_DIR, fname), p.2)
  else (none, p.2)

/-! ## `start_run` and the globals it touches -/

/-- `email_helper`'s recipient-list parsing, also inlined in `start_run`:
`[e.strip() for e in raw.split(",") if e.strip()]`. -/
def parseAlertEmails (raw : String) : List String :=
  ((pySplitOn ',' raw).map pyStripWs).filter (fun e => e ≠ "")

/-- The process-wide mutable state `start_run` can reach: the `runs`
registry, the filesystem, the content of the shared
`LOGS_DIR/soma_run.log`, and the alert-recipient configuration
(`email_helper.ALERT_EMAILS` and `os.environ["ALERT_EMAILS"]`). -/
structure World where
  runs : Registry
  fs : FS
  sharedSomaLog : String
  alertEmails : List String
  envAlertEmails : Option String

/-- `global_log.touch()`: create the file entry if missing. -/
def touchFile (fs : FS) (d name : String) : FS :=
  if fs.files.contains (d, name) then fs
  else { fs with files := fs.files ++ [(d, name)] }

/-- `start_run(args)`: build the command vector, allocate the Run Record
and its private log directory, register it, truncate the shared
`soma_run.log`, overwrite the global alert-recipient configuration from
`args[0]` when `args` is non-empty, and spawn the driver in a new session
(pid `pid`).  `timePart`/`randPart`/`startTs` stand for the wall clock
and uuid randomness consumed by `RunStatus.__init__`. -/
def start_run (w : World) (args : List String)
    (timePart randPart startTs : String) (pid : Nat) : String × World :=
  let cmd := "/bin/bash" :: "scripts/soma_bash.sh" :: args
  let rid := mkRunId timePart randPart
  let run0 := initRunStatus rid cmd startTs pid
  let fs1 := (log_dir_for w.fs rid).2
  let runs1 := dictInsert w.runs rid run0
  let fs2 := touchFile fs1 LOGS_DIR "soma_run.log"
  let cfg : Option String × List String :=
    match args with
    | [] => (w.envAlertEmails, w.alertEmails)
    | a0 :: _ => (some a0, parseAlertEmails a0)
  (rid, { runs := runs1, fs := fs2, sharedSomaLog := "",
          alertEmails := cfg.2, envAlertEmails := cfg.1 })

/-! ## Characterization lemmas for the per-run operations -/

theorem pauseProcess_eq (r : RunStatus) (pid : Nat)
    (hp : r.process = some pid) (hz : pid ≠ 0) :
    pauseProcess r =
      { r with signals := r.signals ++ [SigAction.killPid pid Sig.stop],
               paused := true } := by
  unfold pauseProcess
  rw [hp]
  simp [hz]

theorem resumeProcess_eq (r : RunStatus) (pid : Nat)
    (hp : r.process = some pid) (hz : pid ≠ 0) :
    resumeProcess r =
      { r with signals := r.signals ++ [SigAction.killPid pid Sig.cont],
               paused := false } := by
  unfold resumeProcess
  rw [hp]
  simp [hz]

theorem checkpointStep_eq (r : RunStatus) (t : String) (pid : Nat)
    (hp : r.process = some pid) (hz : pid ≠ 0) :
    checkpointStep r t =
      { r with signals := r.signals ++ [SigAction.killPid pid Sig.stop],
               paused := true,
               pendingStage := some t,
               events := r.events ++ [Event.pausedE t],
               notifications := r.notifications ++ [alertSubject t] } := by
  unfold checkpointStep
  rw [pauseProcess_eq r pid hp hz]

theorem stageMarkerStep_exempt (r : RunStatus) (t : String)
    (h : t = "CONFIG" ∨ t = "COMPLETE") :
    stageMarkerStep r t =
      { r with stage := t, events := r.events ++ [Event.stageE t] } := by
  unfold stageMarkerStep
  simp [h]

theorem stageMarkerStep_checkpoint (r : RunStatus) (t : String) (pid : Nat)
    (hp : r.process = some pid) (hz : pid ≠ 0)
    (h1 : t ≠ "CONFIG") (h2 : t ≠ "COMPLETE") :
    stageMarkerStep r t =
      { r with stage := t,
               signals := r.signals ++ [SigAction.killPid pid Sig.stop],
               paused := true,
               pendingStage := some t,
               events := r.events ++ [Event.stageE t, Event.pausedE t],
               notifications := r.notifications ++ [alertSubject t] } := by
  unfold stageMarkerStep
  have hne : ¬ (t = "CONFIG" ∨ t = "COMPLETE") := by
    intro hc
    rcases hc with hc | hc
    · exact h1 hc
    · exact h2 hc
  simp only [hne, if_false]
  rw [checkpointStep_eq { r with stage := t, events := r.events ++ [Event.stageE t] }
    t pid hp hz]
  simp

/-- C2, confirmed.  For a driver stdout line matching the marker
convention (starts with `"=== "`; the name is the first
whitespace-separated token of the line with `'='` and `' '` stripped from
both ends), the Run Record's `stage` is set to that token and a `stage`
event is published; when the token is neither CONFIG nor COMPLETE, the
process is additionally suspended (SIGSTOP to the driver pid), `paused`
and `pending_stage` are set, a `paused` event is published and a
best-effort notification dispatched; for the two exempt stages nothing
but the stage update, the `stage` event and the generic `log` event
happens. -/
theorem c2_stage_marker_checkpoint (r : RunStatus) (raw : String) (pid : Nat)
    (t : String) (rest : List String)
    (hp : r.process = some pid) (hz : pid ≠ 0)
    (hpre : pyStartsWith "=== " (pyRstrip ['\n'] raw) = true)
    (htok : pySplitWs (pyStrip ['=', ' '] (pyRstrip ['\n'] raw)) = t :: rest) :
    (readLineStep r raw).stage = t ∧
    ((t = "CONFIG" ∨ t = "COMPLETE") →
      readLineStep r raw =
        { r with stage := t,
                 events := r.events ++
                   [Event.stageE t, Event.logE "driver" (pyRstrip ['\n'] raw)] }) ∧
    (t ≠ "CONFIG" → t ≠ "COMPLETE" →
      readLineStep r raw =
        { r with stage := t,
                 signals := r.signals ++ [SigAction.killPid pid Sig.stop],
                 paused := true,
                 pendingStage := some t,
                 events := r.events ++
                   [Event.stageE t, Event.pausedE t,
                    Event.logE "driver" (pyRstrip ['\n'] raw)],
                 notifications := r.notifications ++ [alertSubject t] }) := by
  unfold readLineStep
  simp only [hpre, if_true, htok]
  refine ⟨?_, ?_, ?_⟩
  · by_cases hex : t = "CONFIG" ∨ t = "COMPLETE"
    · rw [stageMarkerStep_exempt r t hex]
    · rcases not_or.mp hex with ⟨h1, h2⟩
      rw [stageMarkerStep_checkpoint r t pid hp hz h1 h2]
  · intro hex
    rw [stageMarkerStep_exempt r t hex]
    simp
  · intro h1 h2
    rw [stageMarkerStep_checkpoint r t pid hp hz h1 h2]
    simp

/-- An example run freshly started with pid 100. -/
def exRun : RunStatus :=
  initRunStatus "20250101-120000-abcdef" ["/bin/bash", "scripts/soma_bash.sh"]
    "2025-01-01T12:00:00Z" 100

/-- Witness for `c2_stage_marker_checkpoint` at the concrete marker line
`"=== LOAD START ===\n"`. -/
theorem c2_stage_marker_checkpoint_witness :
    exRun.process = some 100 ∧
    pyStartsWith "=== " (pyRstrip ['\n'] "=== LOAD START ===\n") = true ∧
    pySplitWs (pyStrip ['=', ' '] (pyRstrip ['\n'] "=== LOAD START ===\n"))
      = "LOAD" :: ["START"] ∧
    (readLineStep exRun "=== LOAD START ===\n").stage = "LOAD" :=
  ⟨rfl, by decide, by decide,
    (c2_stage_marker_checkpoint exRun "=== LOAD START ===\n" 100 "LOAD" ["START"]
      rfl (by decide) (by decide) (by decide)).1⟩

/-- C3, amended claim.  `continue_stage` on a non-paused run is a no-op
publishing nothing; on a paused run it delivers SIGCONT to the driver
pid, clears `paused`, publishes exactly one `resumed` event carrying
`pending_stage` — and leaves `pending_stage` unchanged (the code never
clears it). -/
theorem c3_resume_behaviour (r : RunStatus) (pid : Nat)
    (hp : r.process = some pid) (hz : pid ≠ 0) :
    (r.paused = false → continueStage r = r) ∧
    (r.paused = true →
      continueStage r =
        { r with paused := false,
                 signals := r.signals ++ [SigAction.killPid pid Sig.cont],
                 events := r.events ++ [Event.resumedE r.pendingStage] } ∧
      (continueStage r).pendingStage = r.pendingStage) := by
  constructor
  · intro hpf
    unfold continueStage
    simp [hpf]
  · intro hpt
    unfold continueStage
    simp only [hpt, Bool.not_true, if_false]
    rw [resumeProcess_eq r pid hp hz]
    simp

/-- The example run after the driver printed `"=== LOAD START ==="`:
stage LOAD recognized, checkpoint taken, run paused. -/
def exPausedRun : RunStatus := readLineStep exRun "=== LOAD START ===\n"

/-- Witness for `c3_resume_behaviour` at the concrete paused run. -/
theorem c3_resume_behaviour_witness :
    exPausedRun.process = some 100 ∧ exPausedRun.paused = true ∧
    continueStage exPausedRun =
      { exPausedRun with
          paused := false,
          signals := exPausedRun.signals ++ [SigAction.killPid 100 Sig.cont],
          events := exPausedRun.events ++
            [Event.resumedE exPausedRun.pendingStage] } :=
  ⟨by decide, by decide,
    ((c3_resume_behaviour exPausedRun 100 (by decide) (by decide)).2
      (by decide)).1⟩

/-- C3, counterexample to the claim as stated.  After resuming the
concretely paused run, exactly one `resumed` event carrying the pending
stage was published and `paused` was cleared — but `pending_stage` is
still `some "LOAD"`, not cleared as the claim asserts. -/
theorem c3_pending_not_cleared_counterexample :
    exPausedRun.paused = true ∧
    (continueStage exPausedRun).events =
      exPausedRun.events ++ [Event.resumedE (some "LOAD")] ∧
    (continueStage exPausedRun).paused = false ∧
    (continueStage exPausedRun).pendingStage = some "LOAD" := by
  exact ⟨by decide, by decide, by decide, by decide⟩

/-! ## C1: the pause invariant -/

/-- Whether a delivered signal is a suspend signal addressed to a whole
process group. -/
def isGroupSuspendSig : SigAction → Bool
  | SigAction.killGroup _ Sig.stop => true
  | _ => false

/-- The inductive invariant behind C1: the driver pid is fixed; whenever
`paused` is true, `pending_stage` is set and a SIGSTOP has been delivered
to the driver pid; and every group-addressed signal is SIGTERM or
SIGKILL (pause/resume never address the group). -/
def PauseInv (pid : Nat) (r : RunStatus) : Prop :=
  r.process = some pid ∧
  (r.paused = true →
    r.pendingStage ≠ none ∧ SigAction.killPid pid Sig.stop ∈ r.signals) ∧
  (∀ g s, SigAction.killGroup g s ∈ r.signals → s = Sig.term ∨ s = Sig.kill)

theorem terminateSignals_eq (grace : Nat) (s g : Bool) (pid : Nat)
    (r : RunStatus) :
    terminateSignals grace s g pid r =
      { r with
        signals := r.signals ++
          ((if s then [SigAction.killGroup pid Sig.term] else []) ++
           (if g then [SigAction.killGroup pid Sig.kill] else [])),
        sleeps := r.sleeps ++ [grace] } := by
  cases s <;> cases g <;> simp [terminateSignals]

theorem rmtreeLogDir_eq (k : Bool) (r : RunStatus) :
    rmtreeLogDir k r = { r with logDirExists := r.logDirExists && !k } := by
  obtain ⟨i, c, p, st, et, rc, sg, er, pa, ps, ld, ev, si, no, sl⟩ := r
  cases ld <;> cases k <;> simp [rmtreeLogDir]

theorem terminateRun_eq_live (grace : Nat) (s g k : Bool) (pid : Nat)
    (r : RunStatus) (hp : r.process = some pid) (hrc : r.returnCode = none) :
    terminateRun grace s g k r =
      { r with
        signals := r.signals ++
          ((if s then [SigAction.killGroup pid Sig.term] else []) ++
           (if g then [SigAction.killGroup pid Sig.kill] else [])),
        sleeps := r.sleeps ++ [grace],
        logDirExists := r.logDirExists && !k } := by
  unfold terminateRun
  rw [hp]
  simp only [hrc, if_true]
  rw [terminateSignals_eq, rmtreeLogDir_eq]
  simp [hp, hrc]

theorem terminateRun_eq_dead (grace : Nat) (s g k : Bool) (pid : Nat)
    (r : RunStatus) (hp : r.process = some pid) (rc : Int)
    (hrc : r.returnCode = some rc) :
    terminateRun grace s g k r =
      { r with logDirExists := r.logDirExists && !k } := by
  unfold terminateRun
  rw [hp]
  have hne : ¬ r.returnCode = none := by
    rw [hrc]
    simp
  simp only [hne, if_false]
  rw [rmtreeLogDir_eq]
  simp [hp]

theorem readLineStep_inv (pid : Nat) (hz : pid ≠ 0) (r : RunStatus)
    (raw : String) (h : PauseInv pid r) : PauseInv pid (readLineStep r raw) := by
  obtain ⟨hp, hpause, hgrp⟩ := h
  have hbase : ∀ r1 : RunStatus, PauseInv pid r1 →
      PauseInv pid { r1 with events := r1.events ++
        [Event.logE "driver" (pyRstrip ['\n'] raw)] } :=
    fun r1 h1 => ⟨h1.1, h1.2.1, h1.2.2⟩
  unfold readLineStep
  apply hbase
  cases hpre : pyStartsWith "=== " (pyRstrip ['\n'] raw) with
  | false =>
    rw [if_neg Bool.false_ne_true]
    exact ⟨hp, hpause, hgrp⟩
  | true =>
    rw [if_pos rfl]
    cases htok : pySplitWs (pyStrip ['=', ' '] (pyRstrip ['\n'] raw)) with
    | nil => exact ⟨hp, hpause, hgrp⟩
    | cons t rest =>
      show PauseInv pid (stageMarkerStep r t)
      by_cases hex : t = "CONFIG" ∨ t = "COMPLETE"
      · rw [stageMarkerStep_exempt r t hex]
        exact ⟨hp, hpause, hgrp⟩
      · rcases not_or.mp hex with ⟨h1, h2⟩
        rw [stageMarkerStep_checkpoint r t pid hp hz h1 h2]
        refine ⟨hp, fun _ => ⟨by simp, by simp⟩, ?_⟩
        intro g s hmem
        simp at hmem
        exact hgrp g s hmem

theorem continueStage_inv (pid : Nat) (hz : pid ≠ 0) (r : RunStatus)
    (h : PauseInv pid r) : PauseInv pid (continueStage r) := by
  obtain ⟨hp, hpause, hgrp⟩ := h
  unfold continueStage
  cases hpt : r.paused with
  | false =>
    rw [if_pos (show (!false) = true from rfl)]
    exact ⟨hp, hpause, hgrp⟩
  | true =>
    rw [if_neg (show ¬ ((!true) = true) from by simp)]
    show PauseInv pid { resumeProcess r with
      events := (resumeProcess r).events ++
        [Event.resumedE (resumeProcess r).pendingStage] }
    rw [resumeProcess_eq r pid hp hz]
    refine ⟨hp, by simp, ?_⟩
    intro g s hmem
    simp at hmem
    exact hgrp g s hmem

theorem waitExitStep_inv (pid : Nat) (r : RunStatus) (rc : Int) (ts : String)
    (h : PauseInv pid r) : PauseInv pid (waitExitStep r rc ts) := by
  obtain ⟨hp, hpause, hgrp⟩ := h
  unfold waitExitStep
  exact ⟨hp, fun ht => hpause ht, hgrp⟩

theorem terminateRun_inv (pid : Nat) (grace : Nat) (s g k : Bool)
    (r : RunStatus) (h : PauseInv pid r) :
    PauseInv pid (terminateRun grace s g k r) := by
  obtain ⟨hp, hpause, hgrp⟩ := h
  cases hrc : r.returnCode with
  | none =>
    rw [terminateRun_eq_live grace s g k pid r hp hrc]
    refine ⟨hp, fun ht => ⟨(hpause ht).1, by simp [(hpause ht).2]⟩, ?_⟩
    intro g' s' hmem
    rw [List.mem_append] at hmem
    rcases hmem with hmem | hmem
    · exact hgrp g' s' hmem
    · rw [List.mem_append] at hmem
      rcases hmem with hmem | hmem
      · cases s with
        | true =>
          simp at hmem
          exact Or.inl hmem.2
        | false => simp at hmem
      · cases g with
        | true =>
          simp at hmem
          exact Or.inr hmem.2
        | false => simp at hmem
  | some rc =>
    rw [terminateRun_eq_dead grace s g k pid r hp rc hrc]
    exact ⟨hp, fun ht => hpause ht, hgrp⟩

theorem stepAct_inv (pid : Nat) (hz : pid ≠ 0) (r : RunStatus) (a : Act)
    (h : PauseInv pid r) : PauseInv pid (stepAct r a) := by
  cases a with
  | line raw => exact readLineStep_inv pid hz r raw h
  | resume => exact continueStage_inv pid hz r h
  | exitA rc ts => exact waitExitStep_inv pid r rc ts h
  | cancelA s g k => exact terminateRun_inv pid SOMA_TERM_GRACE s g k r h

theorem runActs_inv (pid : Nat) (hz : pid ≠ 0) :
    ∀ (acts : List Act) (r : RunStatus), PauseInv pid r →
      PauseInv pid (runActs r acts) := by
  intro acts
  induction acts with
  | nil =>
    intro r h
    exact h
  | cons a rest ih =>
    intro r h
    exact ih (stepAct r a) (stepAct_inv pid hz r a h)

/-- C1, amended claim.  In every reachable state of a supervised run:
whenever `paused` is true, `pending_stage` is set and a suspend signal
has been delivered to the immediate driver child process (`os.kill` on
its pid); and suspend/continue signals are never delivered to the whole
process group — group signalling is reserved to SIGTERM/SIGKILL during
cancellation. -/
theorem c1_pause_invariant_child_only (rid : String) (cmd : List String)
    (ts : String) (pid : Nat) (acts : List Act) (hz : pid ≠ 0) :
    ((runActs (initRunStatus rid cmd ts pid) acts).paused = true →
      (runActs (initRunStatus rid cmd ts pid) acts).pendingStage ≠ none ∧
      SigAction.killPid pid Sig.stop ∈
        (runActs (initRunStatus rid cmd ts pid) acts).signals) ∧
    (∀ g s, SigAction.killGroup g s ∈
        (runActs (initRunStatus rid cmd ts pid) acts).signals →
      s = Sig.term ∨ s = Sig.kill) := by
  have hinit : PauseInv pid (initRunStatus rid cmd ts pid) := by
    refine ⟨rfl, by simp [initRunStatus], by simp [initRunStatus]⟩
  have h := runActs_inv pid hz acts (initRunStatus rid cmd ts pid) hinit
  exact ⟨h.2.1, h.2.2⟩

/-- Witness for `c1_pause_invariant_child_only` on the concrete history
marker line, resume, marker line. -/
theorem c1_pause_invariant_child_only_witness :
    (100 : Nat) ≠ 0 ∧
    ((runActs (initRunStatus "r1" ["/bin/bash"] "t0" 100)
        [Act.line "=== LOAD START ===\n", Act.resume,
         Act.line "=== RAMP START ===\n"]).paused = true →
      (runActs (initRunStatus "r1" ["/bin/bash"] "t0" 100)
        [Act.line "=== LOAD START ===\n", Act.resume,
         Act.line "=== RAMP START ===\n"]).pendingStage ≠ none ∧
      SigAction.killPid 100 Sig.stop ∈
        (runActs (initRunStatus "r1" ["/bin/bash"] "t0" 100)
          [Act.line "=== LOAD START ===\n", Act.resume,
           Act.line "=== RAMP START ===\n"]).signals) :=
  ⟨by decide,
    (c1_pause_invariant_child_only "r1" ["/bin/bash"] "t0" 100
      [Act.line "=== LOAD START ===\n", Act.resume,
       Act.line "=== RAMP START ===\n"] (by decide)).1⟩

/-- C1, counterexample to the claim as stated.  After the checkpoint on
`"=== LOAD START ==="` the run is paused with `pending_stage` set, but
the only delivered suspend signal went to the single driver pid: no
suspend signal was ever delivered to the OS process group, contradicting
the claim that pause suspends the entire group. -/
theorem c1_no_group_suspend_counterexample :
    exPausedRun.paused = true ∧
    exPausedRun.pendingStage = some "LOAD" ∧
    exPausedRun.signals = [SigAction.killPid 100 Sig.stop] ∧
    exPausedRun.signals.any isGroupSuspendSig = false := by
  exact ⟨by decide, by decide, by decide, by decide⟩

/-! ## C4: cancellation -/

/-- C4, confirmed.  `cancel_run` on a known id runs `_terminate_run` on
that run's record.  For a live run this delivers SIGTERM to the whole
process group (when the group is alive), sleeps the five-second grace
period, then delivers SIGKILL to the group only if it is still alive
afterwards; the log directory is removed best-effort (a failed removal —
`rmOk = false` — leaves it in place and raises nothing).  On an
already-terminated run (`return_code` set) no signal is sent and no
grace period is waited; only the best-effort directory removal runs. -/
theorem c4_cancel_graceful_forceful (runs : Registry) (rid : String)
    (r : RunStatus) (pid : Nat) (s g k : Bool)
    (hfind : lookupRun runs rid = some r)
    (hp : r.process = some pid) :
    cancel_run runs rid s g k =
      Except.ok (updateRun runs rid (terminateRun SOMA_TERM_GRACE s g k)) ∧
    SOMA_TERM_GRACE = 5 ∧
    (r.returnCode = none →
      (terminateRun SOMA_TERM_GRACE s g k r).signals =
        r.signals ++ ((if s then [SigAction.killGroup pid Sig.term] else []) ++
          (if g then [SigAction.killGroup pid Sig.kill] else [])) ∧
      (terminateRun SOMA_TERM_GRACE s g k r).sleeps =
        r.sleeps ++ [SOMA_TERM_GRACE]) ∧
    (terminateRun SOMA_TERM_GRACE s g k r).logDirExists =
      (r.logDirExists && !k) ∧
    (∀ rc, r.returnCode = some rc →
      (terminateRun SOMA_TERM_GRACE s g k r).signals = r.signals ∧
      (terminateRun SOMA_TERM_GRACE s g k r).sleeps = r.sleeps ∧
      (terminateRun SOMA_TERM_GRACE s g k r).events = r.events ∧
      (terminateRun SOMA_TERM_GRACE s g k r).returnCode = r.returnCode ∧
      (terminateRun SOMA_TERM_GRACE s g k r).paused = r.paused) := by
  refine ⟨?_, rfl, ?_, ?_, ?_⟩
  · unfold cancel_run
    rw [hfind]
  · intro hrc
    rw [terminateRun_eq_live SOMA_TERM_GRACE s g k pid r hp hrc]
    exact ⟨rfl, rfl⟩
  · cases hrc : r.returnCode with
    | none =>
      rw [terminateRun_eq_live SOMA_TERM_GRACE s g k pid r hp hrc]
    | some rc =>
      rw [terminateRun_eq_dead SOMA_TERM_GRACE s g k pid r hp rc hrc]
  · intro rc hrc
    rw [terminateRun_eq_dead SOMA_TERM_GRACE s g k pid r hp rc hrc]
    exact ⟨rfl, rfl, rfl, rfl, rfl⟩

/-- The example run after its process exited with status 0. -/
def exDoneRun : RunStatus := waitExitStep exPausedRun 0 "2025-01-01T13:00:00Z"

/-- Witness for `c4_cancel_graceful_forceful`: cancelling the finished
example run (registered under `"r1"`) sends no signal. -/
theorem c4_cancel_graceful_forceful_witness :
    lookupRun [("r1", exDoneRun)] "r1" = some exDoneRun ∧
    exDoneRun.process = some 100 ∧
    exDoneRun.returnCode = some 0 ∧
    (terminateRun SOMA_TERM_GRACE true true true exDoneRun).signals
      = exDoneRun.signals :=
  ⟨by decide, by decide, by decide,
    ((c4_cancel_graceful_forceful [("r1", exDoneRun)] "r1" exDoneRun 100
      true true true (by decide) (by decide)).2.2.2.2 0 (by decide)).1⟩

/-! ## C5: run-id ordering -/

/-- C5, counterexample to the claim as stated.  Two `start` calls landing
in the same wall-clock second share the 16-character time part of the
id; with uuid suffixes `"ffffff"` then `"000000"` the two ids are
distinct, yet the run started later has the lexicographically *smaller*
id, refuting strict lexicographic increase in start order. -/
theorem c5_same_second_counterexample :
    pyStrLt (mkRunId "20250101-120000-" "ffffff")
      (mkRunId "20250101-120000-" "000000") = false ∧
    pyStrLt (mkRunId "20250101-120000-" "000000")
      (mkRunId "20250101-120000-" "ffffff") = true ∧
    mkRunId "20250101-120000-" "ffffff" ≠ mkRunId "20250101-120000-" "000000" := by
  exact ⟨by decide, by decide, by decide⟩

/-- C5, amended claim.  When the later of two `start` calls falls in a
strictly later second — its fixed-width `strftime` time part is
lexicographically greater — the two run ids are distinct and the later
id is lexicographically strictly greater, whatever the random
suffixes. -/
theorem c5_ids_ordered_across_seconds (t1 s1 t2 s2 : String)
    (hlen : t1.data.length = t2.data.length)
    (hlt : pyStrLt t1 t2 = true) :
    pyStrLt (mkRunId t1 s1) (mkRunId t2 s2) = true ∧
    mkRunId t1 s1 ≠ mkRunId t2 s2 := by
  have h1 : pyStrLt (mkRunId t1 s1) (mkRunId t2 s2) = true := by
    unfold mkRunId pyStrLt
    rw [string_data_append, string_data_append]
    exact pyLtChars_append s1.data s2.data t1.data t2.data hlen hlt
  refine ⟨h1, ?_⟩
  intro heq
  rw [heq] at h1
  rw [pyStrLt_irrefl] at h1
  exact Bool.false_ne_true h1

/-- Witness for `c5_ids_ordered_across_seconds` one second apart. -/
theorem c5_ids_ordered_across_seconds_witness :
    ("20250101-120000-" : String).data.length
      = ("20250101-120001-" : String).data.length ∧
    pyStrLt "20250101-120000-" "20250101-120001-" = true ∧
    pyStrLt (mkRunId "20250101-120000-" "ffffff")
      (mkRunId "20250101-120001-" "000000") = true :=
  ⟨by decide, by decide,
    (c5_ids_ordered_across_seconds "20250101-120000-" "ffffff"
      "20250101-120001-" "000000" (by decide) (by decide)).1⟩

/-! ## C6: exactly one `complete` event, at the exit transition -/

/-- Whether an event is a `complete` event. -/
def isCompleteEv : Event → Bool
  | Event.completeE _ _ => true
  | _ => false

/-- Number of `complete` events in an event trace. -/
def completeCount (evs : List Event) : Nat :=
  (evs.filter isCompleteEv).length

theorem completeCount_append (a b : List Event) :
    completeCount (a ++ b) = completeCount a + completeCount b := by
  unfold completeCount
  rw [List.filter_append, List.length_append]

theorem completeCount_single_not (e : Event) (he : isCompleteEv e = false)
    (l : List Event) : completeCount (l ++ [e]) = completeCount l := by
  rw [completeCount_append]
  simp [completeCount, he]

theorem pauseProcess_frame (r : RunStatus) :
    (pauseProcess r).events = r.events ∧
    (pauseProcess r).returnCode = r.returnCode := by
  unfold pauseProcess
  split
  · split
    · exact ⟨rfl, rfl⟩
    · exact ⟨rfl, rfl⟩
  · exact ⟨rfl, rfl⟩

theorem resumeProcess_frame (r : RunStatus) :
    (resumeProcess r).events = r.events ∧
    (resumeProcess r).returnCode = r.returnCode := by
  unfold resumeProcess
  split
  · split
    · exact ⟨rfl, rfl⟩
    · exact ⟨rfl, rfl⟩
  · exact ⟨rfl, rfl⟩

theorem checkpointStep_frame (r : RunStatus) (t : String) :
    completeCount (checkpointStep r t).events = completeCount r.events ∧
    (checkpointStep r t).returnCode = r.returnCode := by
  unfold checkpointStep
  obtain ⟨he, hrc⟩ := pauseProcess_frame r
  constructor
  · show completeCount ((pauseProcess r).events ++ [Event.pausedE t])
      = completeCount r.events
    rw [completeCount_single_not (Event.pausedE t) rfl, he]
  · exact hrc

theorem stageMarkerStep_frame (r : RunStatus) (t : String) :
    completeCount (stageMarkerStep r t).events = completeCount r.events ∧
    (stageMarkerStep r t).returnCode = r.returnCode := by
  unfold stageMarkerStep
  by_cases hex : t = "CONFIG" ∨ t = "COMPLETE"
  · rw [if_pos hex]
    refine ⟨?_, rfl⟩
    show completeCount (r.events ++ [Event.stageE t]) = completeCount r.events
    rw [completeCount_single_not (Event.stageE t) rfl]
  · rw [if_neg hex]
    obtain ⟨he, hrc⟩ := checkpointStep_frame
      { r with stage := t, events := r.events ++ [Event.stageE t] } t
    refine ⟨?_, hrc⟩
    rw [he]
    show completeCount (r.events ++ [Event.stageE t]) = completeCount r.events
    rw [completeCount_single_not (Event.stageE t) rfl]

theorem readLineStep_frame (r : RunStatus) (raw : String) :
    completeCount (readLineStep r raw).events = completeCount r.events ∧
    (readLineStep r raw).returnCode = r.returnCode := by
  have hX : completeCount
      ((if pyStartsWith "=== " (pyRstrip ['\n'] raw) = true then
          match pySplitWs (pyStrip ['=', ' '] (pyRstrip ['\n'] raw)) with
          | [] => r
          | stageName :: _ => stageMarkerStep r stageName
        else r) : RunStatus).events = completeCount r.events ∧
      ((if pyStartsWith "=== " (pyRstrip ['\n'] raw) = true then
          match pySplitWs (pyStrip ['=', ' '] (pyRstrip ['\n'] raw)) with
          | [] => r
          | stageName :: _ => stageMarkerStep r stageName
        else r) : RunStatus).returnCode = r.returnCode := by
    cases hpre : pyStartsWith "=== " (pyRstrip ['\n'] raw) with
    | false =>
      rw [if_neg Bool.false_ne_true]
      exact ⟨rfl, rfl⟩
    | true =>
      rw [if_pos rfl]
      cases htok : pySplitWs (pyStrip ['=', ' '] (pyRstrip ['\n'] raw)) with
      | nil => exact ⟨rfl, rfl⟩
      | cons t rest => exact stageMarkerStep_frame r t
  have hbase : ∀ r1 : RunStatus,
      completeCount r1.events = completeCount r.events →
      r1.returnCode = r.returnCode →
      completeCount ({ r1 with events := r1.events ++
          [Event.logE "driver" (pyRstrip ['\n'] raw)] } : RunStatus).events
        = completeCount r.events ∧
      ({ r1 with events := r1.events ++
          [Event.logE "driver" (pyRstrip ['\n'] raw)] } : RunStatus).returnCode
        = r.returnCode := by
    intro r1 h1 h2
    refine ⟨?_, h2⟩
    show completeCount (r1.events ++
      [Event.logE "driver" (pyRstrip ['\n'] raw)]) = completeCount r.events
    rw [completeCount_single_not (Event.logE "driver" (pyRstrip ['\n'] raw)) rfl,
      h1]
  exact hbase _ hX.1 hX.2

theorem continueStage_frame (r : RunStatus) :
    completeCount (continueStage r).events = completeCount r.events ∧
    (continueStage r).returnCode = r.returnCode := by
  unfold continueStage
  cases hpt : r.paused with
  | false =>
    rw [if_pos (show (!false) = true from rfl)]
    exact ⟨rfl, rfl⟩
  | true =>
    rw [if_neg (show ¬ ((!true) = true) from by simp)]
    obtain ⟨he, hrc⟩ := resumeProcess_frame r
    refine ⟨?_, hrc⟩
    show completeCount ((resumeProcess r).events ++
      [Event.resumedE (resumeProcess r).pendingStage]) = completeCount r.events
    rw [completeCount_single_not
      (Event.resumedE (resumeProcess r).pendingStage) rfl, he]

theorem terminateRun_frame (grace : Nat) (s g k : Bool) (r : RunStatus) :
    (terminateRun grace s g k r).events = r.events ∧
    (terminateRun grace s g k r).returnCode = r.returnCode := by
  unfold terminateRun
  have hrm : ∀ r1 : RunStatus, (rmtreeLogDir k r1).events = r1.events ∧
      (rmtreeLogDir k r1).returnCode = r1.returnCode := by
    intro r1
    rw [rmtreeLogDir_eq]
    exact ⟨rfl, rfl⟩
  obtain ⟨h1, h2⟩ := hrm (match r.process with
    | some pid =>
      if r.returnCode = none then terminateSignals grace s g pid r else r
    | none => r)
  refine ⟨?_, ?_⟩
  · rw [h1]
    cases r.process with
    | none => rfl
    | some pid =>
      show (if r.returnCode = none then terminateSignals grace s g pid r
        else r).events = r.events
      by_cases hrc : r.returnCode = none
      · rw [if_pos hrc, terminateSignals_eq]
      · rw [if_neg hrc]
  · rw [h2]
    cases r.process with
    | none => rfl
    | some pid =>
      show (if r.returnCode = none then terminateSignals grace s g pid r
        else r).returnCode = r.returnCode
      by_cases hrc : r.returnCode = none
      · rw [if_pos hrc, terminateSignals_eq]
      · rw [if_neg hrc]

theorem stepAct_frame (r : RunStatus) (a : Act) (hne : isExitAct a = false) :
    completeCount (stepAct r a).events = completeCount r.events ∧
    (stepAct r a).returnCode = r.returnCode := by
  cases a with
  | line raw => exact readLineStep_frame r raw
  | resume => exact continueStage_frame r
  | exitA rc ts => simp [isExitAct] at hne
  | cancelA s g k =>
    obtain ⟨h1, h2⟩ := terminateRun_frame SOMA_TERM_GRACE s g k r
    exact ⟨by rw [show (stepAct r (Act.cancelA s g k)).events =
      (terminateRun SOMA_TERM_GRACE s g k r).events from rfl, h1], h2⟩

theorem runActs_append (r : RunStatus) (l1 l2 : List Act) :
    runActs r (l1 ++ l2) = runActs (runActs r l1) l2 :=
  List.foldl_append stepAct r l1 l2

theorem runActs_noexit : ∀ (l : List Act) (r : RunStatus),
    (∀ a ∈ l, isExitAct a = false) →
    completeCount (runActs r l).events = completeCount r.events ∧
    (runActs r l).returnCode = r.returnCode := by
  intro l
  induction l with
  | nil =>
    intro r _
    exact ⟨rfl, rfl⟩
  | cons a rest ih =>
    intro r hne
    have ha := stepAct_frame r a (hne a (List.mem_cons_self a rest))
    have h2 := ih (stepAct r a)
      (fun a' h' => hne a' (List.mem_cons_of_mem a h'))
    constructor
    · rw [show runActs r (a :: rest) = runActs (stepAct r a) rest from rfl,
        h2.1, ha.1]
    · rw [show runActs r (a :: rest) = runActs (stepAct r a) rest from rfl,
        h2.2, ha.2]

/-- C6, confirmed.  In any run history that contains exactly one exit
step (the exit-waiter fires once, when the process exits): no `complete`
event exists before the exit step and `return_code` is still unset
there; the exit step appends the single `complete` event with the exit
status; afterwards, whatever further steps happen, the trace holds
exactly one `complete` event and `return_code` stays at the value set at
the terminal transition. -/
theorem c6_single_complete (rid : String) (cmd : List String) (ts0 : String)
    (pid : Nat) (pre post : List Act) (rc : Int) (ets : String)
    (hpre : ∀ a ∈ pre, isExitAct a = false)
    (hpost : ∀ a ∈ post, isExitAct a = false) :
    completeCount (runActs (initRunStatus rid cmd ts0 pid) pre).events = 0 ∧
    (runActs (initRunStatus rid cmd ts0 pid) pre).returnCode = none ∧
    (runActs (initRunStatus rid cmd ts0 pid) (pre ++ [Act.exitA rc ets])).events
      = (runActs (initRunStatus rid cmd ts0 pid) pre).events ++
          [Event.completeE (if rc = 0 then "success" else "failure") rc] ∧
    (runActs (initRunStatus rid cmd ts0 pid)
      (pre ++ Act.exitA rc ets :: post)).returnCode = some rc ∧
    completeCount (runActs (initRunStatus rid cmd ts0 pid)
      (pre ++ Act.exitA rc ets :: post)).events = 1 := by
  have h1 := runActs_noexit pre (initRunStatus rid cmd ts0 pid) hpre
  have hc0 : completeCount
      (runActs (initRunStatus rid cmd ts0 pid) pre).events = 0 := by
    rw [h1.1]
    rfl
  have hrc0 : (runActs (initRunStatus rid cmd ts0 pid) pre).returnCode = none := by
    rw [h1.2]
    rfl
  have hsplit : runActs (initRunStatus rid cmd ts0 pid)
      (pre ++ Act.exitA rc ets :: post)
      = runActs (stepAct (runActs (initRunStatus rid cmd ts0 pid) pre)
          (Act.exitA rc ets)) post := by
    rw [runActs_append]
    rfl
  have h2 := runActs_noexit post
    (stepAct (runActs (initRunStatus rid cmd ts0 pid) pre) (Act.exitA rc ets))
    hpost
  refine ⟨hc0, hrc0, ?_, ?_, ?_⟩
  · rw [runActs_append]
    rfl
  · rw [hsplit, h2.2]
    rfl
  · rw [hsplit, h2.1]
    show completeCount
      ((runActs (initRunStatus rid cmd ts0 pid) pre).events ++
        [Event.completeE (if rc = 0 then "success" else "failure") rc]) = 1
    rw [completeCount_append, hc0]
    rfl

/-- Witness for `c6_single_complete`: a CONFIG marker line, exit with
status 0, then a stray resume. -/
theorem c6_single_complete_witness :
    (∀ a ∈ [Act.line "=== CONFIG ===\n"], isExitAct a = false) ∧
    (∀ a ∈ [Act.resume], isExitAct a = false) ∧
    completeCount (runActs (initRunStatus "r1" ["/bin/bash"] "t0" 100)
      ([Act.line "=== CONFIG ===\n"] ++ Act.exitA 0 "t1" :: [Act.resume])).events
      = 1 :=
  ⟨by decide, by decide,
    (c6_single_complete "r1" ["/bin/bash"] "t0" 100
      [Act.line "=== CONFIG ===\n"] [Act.resume] 0 "t1"
      (by decide) (by decide)).2.2.2.2⟩

/-! ## C7: the active-run query -/

theorem getLast?_of_ne_nil {α : Type} :
    ∀ (l : List α), l ≠ [] → ∃ m, l.getLast? = some m
  | [], h => absurd rfl h
  | [x], _ => ⟨x, rfl⟩
  | x :: y :: ys, _ => by
    rw [List.getLast?_cons_cons]
    exact getLast?_of_ne_nil (y :: ys) (by simp)

/-- C7, confirmed.  `get_active_run_id` returns `none` exactly when every
record in the registry has its return code set; otherwise it returns the
id of an unfinished record whose start time is maximal (no other
unfinished record starts strictly later). -/
theorem c7_get_active_run_id (runs : Registry) :
    (get_active_run_id runs = none ↔
      ∀ r ∈ runs.map Prod.snd, r.returnCode ≠ none) ∧
    (∀ rid, get_active_run_id runs = some rid →
      ∃ r ∈ runs.map Prod.snd, r.id = rid ∧ r.returnCode = none ∧
        ∀ r' ∈ runs.map Prod.snd, r'.returnCode = none →
          pyStrLt r.startTs r'.startTs = false) := by
  have hact : ∀ x, x ∈ (runs.map Prod.snd).filter (fun r => r.returnCode.isNone)
      ↔ x ∈ runs.map Prod.snd ∧ x.returnCode = none := by
    intro x
    rw [List.mem_filter]
    simp [Option.isNone_iff_eq_none]
  have hchar : get_active_run_id runs =
      (if ((runs.map Prod.snd).filter (fun r => r.returnCode.isNone)).isEmpty
       then none
       else ((pySortBy (fun a b => pyStrLt a.startTs b.startTs)
         ((runs.map Prod.snd).filter (fun r => r.returnCode.isNone))).getLast?).map
           (fun r => r.id)) := rfl
  have hasymm : ∀ a b : RunStatus,
      (fun a b : RunStatus => pyStrLt a.startTs b.startTs) a b = true →
      (fun a b : RunStatus => pyStrLt a.startTs b.startTs) b a = false :=
    fun a b h => pyStrLt_asymm h
  have htrans : ∀ a b c : RunStatus,
      (fun a b : RunStatus => pyStrLt a.startTs b.startTs) a b = true →
      (fun a b : RunStatus => pyStrLt a.startTs b.startTs) b c = true →
      (fun a b : RunStatus => pyStrLt a.startTs b.startTs) a c = true :=
    fun a b c h1 h2 => pyStrLt_trans h1 h2
  have hirrefl : ∀ a : RunStatus,
      (fun a b : RunStatus => pyStrLt a.startTs b.startTs) a a = false :=
    fun a => pyStrLt_irrefl a.startTs
  constructor
  · constructor
    · intro hnone r hr hrc
      by_cases hA : ((runs.map Prod.snd).filter
          (fun r => r.returnCode.isNone)).isEmpty
      · have hA' : (runs.map Prod.snd).filter (fun r => r.returnCode.isNone)
            = [] := List.isEmpty_iff.mp hA
        have : r ∈ (runs.map Prod.snd).filter (fun r => r.returnCode.isNone) :=
          (hact r).mpr ⟨hr, hrc⟩
        rw [hA'] at this
        exact absurd this (List.not_mem_nil r)
      · exfalso
        have hA' : (runs.map Prod.snd).filter (fun r => r.returnCode.isNone)
            ≠ [] := by
          intro hc
          rw [hc] at hA
          exact hA rfl
        have hmem : r ∈ pySortBy (fun a b => pyStrLt a.startTs b.startTs)
            ((runs.map Prod.snd).filter (fun r => r.returnCode.isNone)) :=
          (mem_pySortBy _ r _).mpr ((hact r).mpr ⟨hr, hrc⟩)
        obtain ⟨m, hm⟩ := getLast?_of_ne_nil _ (List.ne_nil_of_mem hmem)
        rw [hchar, if_neg hA, hm] at hnone
        exact Option.noConfusion hnone
    · intro hall
      have hA : (runs.map Prod.snd).filter (fun r => r.returnCode.isNone)
          = [] := by
        rw [List.filter_eq_nil_iff]
        intro a ha hcontra
        exact hall a ha (Option.isNone_iff_eq_none.mp hcontra)
      rw [hchar, hA]
      rfl
  · intro rid hsome
    by_cases hA : ((runs.map Prod.snd).filter
        (fun r => r.returnCode.isNone)).isEmpty
    · rw [hchar, if_pos hA] at hsome
      exact Option.noConfusion hsome
    · rw [hchar, if_neg hA] at hsome
      obtain ⟨m, hm, hmid⟩ := Option.map_eq_some'.mp hsome
      have hmmem : m ∈ pySortBy (fun a b => pyStrLt a.startTs b.startTs)
          ((runs.map Prod.snd).filter (fun r => r.returnCode.isNone)) :=
        getLast?_mem' _ m hm
      have hmA := (hact m).mp ((mem_pySortBy _ m _).mp hmmem)
      refine ⟨m, hmA.1, hmid, hmA.2, ?_⟩
      intro r' hr' hrc'
      have hsorted := pySortBy_sorted
        (fun a b : RunStatus => pyStrLt a.startTs b.startTs) hasymm htrans
        ((runs.map Prod.snd).filter (fun r => r.returnCode.isNone))
      have hmax := sortedBy_getLast_max
        (fun a b : RunStatus => pyStrLt a.startTs b.startTs) hirrefl _ m
        hsorted hm
      exact hmax r' ((mem_pySortBy _ r' _).mpr ((hact r').mpr ⟨hr', hrc'⟩))

/-- Two registered runs for the active-run witness. -/
def exRunA : RunStatus := initRunStatus "A" ["x"] "2025-01-01T10:00:00Z" 50

/-- Second registered run, started later than `exRunA`. -/
def exRunB : RunStatus := initRunStatus "B" ["x"] "2025-01-01T11:00:00Z" 60

/-- Witness for `c7_get_active_run_id` on a concrete two-run registry:
the query returns `"B"`, and `"B"` is an unfinished record of maximal
start time. -/
theorem c7_get_active_run_id_witness :
    get_active_run_id [("A", exRunA), ("B", exRunB)] = some "B" ∧
    ∃ r ∈ [("A", exRunA), ("B", exRunB)].map Prod.snd, r.id = "B" ∧
      r.returnCode = none ∧
      ∀ r' ∈ [("A", exRunA), ("B", exRunB)].map Prod.snd,
        r'.returnCode = none → pyStrLt r.startTs r'.startTs = false :=
  ⟨by decide,
    (c7_get_active_run_id [("A", exRunA), ("B", exRunB)]).2 "B" (by decide)⟩

/-! ## C8: NotFound behaviour of the four commands -/

theorem log_dir_for_creates (fs : FS) (rid : String) :
    logDirPath rid ∈ (log_dir_for fs rid).2.dirs := by
  show logDirPath rid ∈ (if fs.dirs.contains (logDirPath rid) then fs.dirs
    else fs.dirs ++ [logDirPath rid])
  by_cases hc : fs.dirs.contains (logDirPath rid) = true
  · rw [if_pos hc]
    simpa using hc
  · rw [if_neg hc]
    simp

/-- C8, amended claim.  For an unknown run id, `status` and `cancel`
surface NotFound (`KeyError`); but `resume` (the `continue_stage`
handler) silently returns, changing nothing and publishing nothing, and
`list_log_files` performs no registry check at all — it succeeds for any
id, creating that id's private log directory as a side effect. -/
theorem c8_notfound_behaviour (runs : Registry) (rid : String) (fs : FS)
    (s g k : Bool) (hmiss : lookupRun runs rid = none) :
    get_status runs rid = Except.error "run not found" ∧
    cancel_run runs rid s g k = Except.error "run not found" ∧
    continue_stage runs (some rid) = runs ∧
    logDirPath rid ∈ (list_log_files fs rid).2.dirs := by
  refine ⟨?_, ?_, ?_, ?_⟩
  · unfold get_status
    rw [hmiss]
  · unfold cancel_run
    rw [hmiss]
  · show (if rid = "" then runs
      else match lookupRun runs rid with
        | none => runs
        | some _ => updateRun runs rid continueStage) = runs
    by_cases he : rid = ""
    · rw [if_pos he]
    · rw [if_neg he, hmiss]
  · exact log_dir_for_creates fs rid

/-- Example filesystem: the shared `LOGS_DIR` exists and holds the
legacy `soma_run.log`. -/
def exFS : FS := { dirs := [LOGS_DIR], files := [(LOGS_DIR, "soma_run.log")] }

/-- Witness for `c8_notfound_behaviour` at the unknown id `"ghost"`. -/
theorem c8_notfound_behaviour_witness :
    lookupRun ([] : Registry) "ghost" = none ∧
    get_status ([] : Registry) "ghost" = Except.error "run not found" :=
  ⟨by decide,
    (c8_notfound_behaviour [] "ghost" exFS true true true (by decide)).1⟩

/-- C8, counterexample to the claim as stated.  `"ghost"` is not in the
registry, yet `resume` returns silently (no NotFound, no event: the
registry is returned unchanged) and `list_log_files` succeeds, returning
the shared directory's log files — so not every one of the four
operations surfaces NotFound. -/
theorem c8_no_notfound_counterexample :
    lookupRun ([] : Registry) "ghost" = none ∧
    continue_stage ([] : Registry) (some "ghost") = ([] : Registry) ∧
    (list_log_files exFS "ghost").1 = ["soma_run.log"] := by
  exact ⟨by decide, by decide, by decide⟩

/-! ## C9: cross-run isolation of `start_run` -/

theorem lookupRun_updateRun_ne : ∀ (runs : Registry) (rid' rid : String)
    (f : RunStatus → RunStatus), rid ≠ rid' →
    lookupRun (updateRun runs rid' f) rid = lookupRun runs rid := by
  intro runs rid' rid f h
  induction runs with
  | nil => rfl
  | cons p rest ih =>
    show lookupRun ((if p.1 == rid' then (p.1, f p.2) else p)
      :: updateRun rest rid' f) rid = lookupRun (p :: rest) rid
    by_cases hp : p.1 = rid'
    · rw [if_pos (beq_iff_eq.mpr hp)]
      have hkey : ¬ ((p.1 == rid) = true) := by
        rw [beq_iff_eq]
        intro hc
        exact h (hp ▸ hc ▸ rfl)
      show (if p.1 == rid then some (f p.2) else lookupRun (updateRun rest rid' f) rid)
        = lookupRun (p :: rest) rid
      rw [if_neg hkey]
      show lookupRun (updateRun rest rid' f) rid
        = if p.1 == rid then some p.2 else lookupRun rest rid
      rw [if_neg hkey]
      exact ih
    · rw [if_neg (by rw [beq_iff_eq]; exact hp)]
      by_cases hk : p.1 = rid
      · show (if p.1 == rid then some p.2 else lookupRun (updateRun rest rid' f) rid)
          = lookupRun (p :: rest) rid
        rw [if_pos (beq_iff_eq.mpr hk)]
        show some p.2 = if p.1 == rid then some p.2 else lookupRun rest rid
        rw [if_pos (beq_iff_eq.mpr hk)]
      · show (if p.1 == rid then some p.2 else lookupRun (updateRun rest rid' f) rid)
          = lookupRun (p :: rest) rid
        rw [if_neg (by rw [beq_iff_eq]; exact hk)]
        show lookupRun (updateRun rest rid' f) rid
          = if p.1 == rid then some p.2 else lookupRun rest rid
        rw [if_neg (by rw [beq_iff_eq]; exact hk)]
        exact ih

theorem lookupRun_append_ne : ∀ (runs : Registry) (rid' rid : String)
    (r0 : RunStatus), rid ≠ rid' →
    lookupRun (runs ++ [(rid', r0)]) rid = lookupRun runs rid := by
  intro runs rid' rid r0 h
  induction runs with
  | nil =>
    show (if rid' == rid then some r0 else lookupRun [] rid) = none
    rw [if_neg (by rw [beq_iff_eq]; exact fun hc => h (hc ▸ rfl))]
    rfl
  | cons p rest ih =>
    show (if p.1 == rid then some p.2 else lookupRun (rest ++ [(rid', r0)]) rid)
      = if p.1 == rid then some p.2 else lookupRun rest rid
    by_cases hk : p.1 = rid
    · rw [if_pos (beq_iff_eq.mpr hk), if_pos (beq_iff_eq.mpr hk)]
    · rw [if_neg (by rw [beq_iff_eq]; exact hk),
        if_neg (by rw [beq_iff_eq]; exact hk)]
      exact ih

theorem lookupRun_dictInsert_ne (runs : Registry) (rid' rid : String)
    (r0 : RunStatus) (h : rid ≠ rid') :
    lookupRun (dictInsert runs rid' r0) rid = lookupRun runs rid := by
  unfold dictInsert
  by_cases hf : (lookupRun runs rid').isSome = true
  · rw [if_pos hf]
    exact lookupRun_updateRun_ne runs rid' rid _ h
  · rw [if_neg hf]
    exact lookupRun_append_ne runs rid' rid r0 h

/-- C9, amended claim.  `start_run` leaves every existing Run Record
unchanged (with a fresh id, no registry entry other than the new one is
touched), but it is not free of shared mutable state: it truncates the
shared legacy `soma_run.log` and, when `args` is non-empty, overwrites
the process-wide alert-recipient configuration
(`email_helper.ALERT_EMAILS` and `os.environ["ALERT_EMAILS"]`) that
every run's subsequent notifications read. -/
theorem c9_start_run_isolation (w : World) (args : List String)
    (tp sfx ts : String) (pid : Nat) (rid : String) (r : RunStatus)
    (hold : lookupRun w.runs rid = some r) (hne : rid ≠ mkRunId tp sfx) :
    lookupRun (start_run w args tp sfx ts pid).2.runs rid = some r ∧
    (start_run w args tp sfx ts pid).2.sharedSomaLog = "" ∧
    (∀ a0 rest, args = a0 :: rest →
      (start_run w args tp sfx ts pid).2.alertEmails = parseAlertEmails a0 ∧
      (start_run w args tp sfx ts pid).2.envAlertEmails = some a0) ∧
    (args = [] →
      (start_run w args tp sfx ts pid).2.alertEmails = w.alertEmails ∧
      (start_run w args tp sfx ts pid).2.envAlertEmails = w.envAlertEmails) := by
  refine ⟨?_, ?_, ?_, ?_⟩
  · show lookupRun (dictInsert w.runs (mkRunId tp sfx)
      (initRunStatus (mkRunId tp sfx)
        ("/bin/bash" :: "scripts/soma_bash.sh" :: args) ts pid)) rid = some r
    rw [lookupRun_dictInsert_ne w.runs (mkRunId tp sfx) rid _ hne]
    exact hold
  · rfl
  · intro a0 rest harg
    subst harg
    exact ⟨rfl, rfl⟩
  · intro harg
    subst harg
    exact ⟨rfl, rfl⟩

/-- A world with one registered run, existing alert configuration and
content in the shared log. -/
def exWorld : World :=
  { runs := [("A", exRunA)], fs := exFS,
    sharedSomaLog := "previous run output",
    alertEmails := ["ops@corp.example"],
    envAlertEmails := some "ops@corp.example" }

/-- Witness for `c9_start_run_isolation`: entry `"A"` is untouched by a
later `start_run`. -/
theorem c9_start_run_isolation_witness :
    lookupRun exWorld.runs "A" = some exRunA ∧
    ("A" : String) ≠ mkRunId "20250102-090000-" "abc123" ∧
    lookupRun (start_run exWorld ["new@corp.example"] "20250102-090000-"
      "abc123" "2025-01-02T09:00:00Z" 200).2.runs "A" = some exRunA :=
  ⟨by decide, by decide,
    (c9_start_run_isolation exWorld ["new@corp.example"] "20250102-090000-"
      "abc123" "2025-01-02T09:00:00Z" 200 "A" exRunA (by decide) (by decide)).1⟩

/-- C9, counterexample to the claim as stated.  Starting a new run with a
fresh recipient list changes the alert configuration the already-running
run `"A"` depends on for its checkpoint notifications, and truncates the
shared `soma_run.log` — configuration and shared log state are not left
unchanged. -/
theorem c9_shared_config_counterexample :
    (start_run exWorld ["new@corp.example"] "20250102-090000-" "abc123"
      "2025-01-02T09:00:00Z" 200).2.alertEmails ≠ exWorld.alertEmails ∧
    (start_run exWorld ["new@corp.example"] "20250102-090000-" "abc123"
      "2025-01-02T09:00:00Z" 200).2.sharedSomaLog ≠ exWorld.sharedSomaLog := by
  exact ⟨by decide, by decide⟩

/-! ## C10: log queries write to the filesystem -/

theorem download_log_fs (fs : FS) (rid fname : String) :
    (download_log fs rid fname).2 = (log_dir_for fs rid).2 := by
  show (if (log_dir_for fs rid).2.files.contains ((log_dir_for fs rid).1, fname)
        = true
      then (some ((log_dir_for fs rid).1, fname), (log_dir_for fs rid).2)
      else if (log_dir_for fs rid).2.files.contains (LOGS_DIR, fname) = true
        then (some (LOGS_DIR, fname), (log_dir_for fs rid).2)
        else (none, (log_dir_for fs rid).2)).2 = (log_dir_for fs rid).2
  split
  · rfl
  · split
    · rfl
    · rfl

/-- C10, confirmed.  `list_log_files` and the log-download route call
`log_dir_for`, which unconditionally creates the id's private log
directory: after either query the directory exists, for every filesystem
and every run id — neither function even takes the registry as input, so
this holds in particular for ids that were never started.  On the
concrete filesystem `exFS` the directory set visibly grows for the
never-started id `"never-started"`. -/
theorem c10_log_queries_create_dir (fs : FS) (rid fname : String) :
    logDirPath rid ∈ (list_log_files fs rid).2.dirs ∧
    logDirPath rid ∈ (download_log fs rid fname).2.dirs ∧
    (list_log_files exFS "never-started").2.dirs ≠ exFS.dirs := by
  refine ⟨?_, ?_, ?_⟩
  · exact log_dir_for_creates fs rid
  · rw [download_log_fs]
    exact log_dir_for_creates fs rid
  · decide

end PulseSoma
